import Mathlib

/-!
Verification of the trial-metrics extraction pipeline of the
temporal-uncertainty-tracking repository.

The analysis core lives in `analysis/compute_variance.py`; the ideal
trajectory generator lives in `stimuli.py`.  Python floats are modelled as
rationals (`ℚ`), numpy arrays as lists, `None` / `NaN`-valued metric fields
as `Option ℚ`, and a raised Python exception as the `Except.error` branch of
an `Except` result.  Every definition below is translated from the source;
definitions whose name matches a Python function embed that function.
-/

/-- The guard value 1e-12 used by `compute_velocity` for near-zero time deltas. -/
def eps : ℚ := 1 / 1000000000000

/-- Embeds `compute_velocity(values, times)` from `analysis/compute_variance.py`
(lines 34-51): central differences with forward/backward differences at the
endpoints, each time delta clamped below by `eps`.  The numpy vectorised
assignments (`v[0]`, `v[-1]`, `v[1:-1]`) become one position-indexed table of
the same length as `values`. -/
def compute_velocity (values times : List ℚ) : List ℚ :=
  let n := values.length
  if n = 0 then []
  else if n = 1 then [0]
  else List.ofFn (fun i : Fin n =>
    if i.1 = 0 then
      (values.getD 1 0 - values.getD 0 0) / max (times.getD 1 0 - times.getD 0 0) eps
    else if i.1 = n - 1 then
      (values.getD (n-1) 0 - values.getD (n-2) 0) /
        max (times.getD (n-1) 0 - times.getD (n-2) 0) eps
    else
      (values.getD (i.1+1) 0 - values.getD (i.1-1) 0) /
        max (times.getD (i.1+1) 0 - times.getD (i.1-1) 0) eps)

/-- Embeds the scanning loop of `first_sustain_time` (lines 60-69).  The loop
walks the samples in order carrying `start_idx` (the index where the current
run of `true` began); only `t[start_idx]` is ever read from that state, so the
state is carried here as the run-start timestamp.  `none` state means
`start_idx is None`. -/
def sustainGo (d : ℚ) : List (ℚ × Bool) → Option ℚ → Option ℚ
  | [], _ => none
  | p :: rest, run =>
    if p.2 then
      let s := run.getD p.1
      if d ≤ p.1 - s then some s else sustainGo d rest (some s)
    else sustainGo d rest none

/-- Embeds `first_sustain_time(t, cond, min_duration_s)` from
`analysis/compute_variance.py` (lines 53-70): guard for empty or mismatched
inputs, then the scan `sustainGo` over the aligned samples. -/
def first_sustain_time (t : List ℚ) (cond : List Bool) (d : ℚ) : Option ℚ :=
  if t.length = 0 ∨ cond.length = 0 ∨ t.length ≠ cond.length then none
  else sustainGo d (t.zip cond) none

/-- Start index of the run of consecutive `true` values containing index `i`
(meaningful when `cond` is `true` at `i`): walking backwards, the run starts
just after the nearest `false`.  Written from the words of the specification
of the sustained detector. -/
def run_start (cond : List Bool) : ℕ → ℕ
  | 0 => 0
  | i+1 => if cond.getD i false then run_start cond i else i+1

/-- Index `i` is a hit for the sustained detector: the condition holds at `i`
and the elapsed time since the start of the run containing `i` reaches or
exceeds `d`.  Written from the words of the specification. -/
def sustainHit (t : List ℚ) (cond : List Bool) (d : ℚ) (i : ℕ) : Bool :=
  cond.getD i false && decide (d ≤ t.getD i 0 - t.getD (run_start cond i) 0)

/-- Specification-level sustained detector: find the first hit index and
return the timestamp of the start of the run containing it; `none` when no
run ever reaches duration `d`.  Written from the words of the specification,
to be compared with the source embedding `first_sustain_time`. -/
def firstSustainSpec (t : List ℚ) (cond : List Bool) (d : ℚ) : Option ℚ :=
  ((List.range cond.length).find? (sustainHit t cond d)).map
    (fun i => t.getD (run_start cond i) 0)

/-- Embeds `first_cross_time_pos(t, y, thresh_value, direction)` from
`analysis/compute_variance.py` (lines 72-96).  `np.where` over `y` yields the
indices satisfying the comparison; the code then evaluates `t[idx[0]]`, which
raises `IndexError` when that index is out of range of `t` (there is no
length guard in this function).  The raised exception is modelled as
`Except.error`. -/
def first_cross_time_pos (t y : List ℚ) (thresh_value : ℚ) (direction : String) :
    Except String (Option ℚ) :=
  let idx := (List.range y.length).filter (fun i =>
    if direction = "up" then decide (thresh_value ≤ y.getD i 0)
    else decide (y.getD i 0 ≤ thresh_value))
  match idx.head? with
  | none => Except.ok none
  | some i => if i < t.length then Except.ok (some (t.getD i 0)) else Except.error "IndexError"

/-- State carried by the scan of `first_sustain_time` just before processing
index `k`: `none` outside a run of `true` values, otherwise the timestamp of
the start of the run that is open at `k`. -/
def sustainState (t : List ℚ) (cond : List Bool) : ℕ → Option ℚ
  | 0 => none
  | k+1 => if cond.getD k false then some (t.getD (run_start cond (k+1)) 0) else none

lemma sustainState_getD (t : List ℚ) (cond : List Bool) (k : ℕ) :
    (sustainState t cond k).getD (t.getD k 0) = t.getD (run_start cond k) 0 := by
  cases k with
  | zero => rfl
  | succ j =>
    cases h : cond.getD j false with
    | true =>
      simp only [sustainState, run_start, if_pos h]
      rfl
    | false =>
      have hne : ¬cond.getD j false = true := by rw [h]; exact Bool.false_ne_true
      simp only [sustainState, run_start, if_neg hne]
      rfl

lemma sustainGo_drop (t : List ℚ) (cond : List Bool) (d : ℚ)
    (hlen : t.length = cond.length) :
    ∀ m k, k + m = cond.length →
      sustainGo d ((t.zip cond).drop k) (sustainState t cond k)
        = ((List.range' k m).find? (sustainHit t cond d)).map
            (fun i => t.getD (run_start cond i) 0) := by
  intro m
  induction m with
  | zero =>
    intro k hk
    have hdrop : (t.zip cond).drop k = [] := by
      apply List.drop_eq_nil_of_le
      simp [List.length_zip, hlen]
      omega
    simp [hdrop, sustainGo]
  | succ m ih =>
    intro k hk
    have hkc : k < cond.length := by omega
    have hkt : k < t.length := by omega
    have hkz : k < (t.zip cond).length := by
      simp [List.length_zip, hlen]
      omega
    have hdrop : (t.zip cond).drop k = (t.zip cond)[k] :: (t.zip cond).drop (k+1) :=
      List.drop_eq_getElem_cons hkz
    have hget : (t.zip cond)[k] = (t.getD k 0, cond.getD k false) := by
      rw [List.getElem_zip, List.getD_eq_getElem t 0 hkt, List.getD_eq_getElem cond false hkc]
    rw [hdrop, hget, List.range'_succ]
    cases hc : cond.getD k false with
    | true =>
      rw [sustainGo]
      simp only [hc, if_true, sustainState_getD]
      by_cases hd : d ≤ t.getD k 0 - t.getD (run_start cond k) 0
      · have hhit : sustainHit t cond d k = true := by
          unfold sustainHit
          rw [hc, Bool.true_and, decide_eq_true_eq]
          exact hd
        rw [if_pos hd, List.find?_cons_of_pos _ hhit]
        simp
      · have hhit : sustainHit t cond d k = false := by
          unfold sustainHit
          rw [hc, Bool.true_and]
          exact decide_eq_false hd
        rw [if_neg hd, List.find?_cons_of_neg _ (by rw [hhit]; exact Bool.false_ne_true)]
        have hrs : run_start cond (k+1) = run_start cond k := by
          simp only [run_start, if_pos hc]
        have hst : sustainState t cond (k+1) = some (t.getD (run_start cond k) 0) := by
          simp only [sustainState, if_pos hc, hrs]
        rw [← hst, ih (k+1) (by omega)]
    | false =>
      have hcne : ¬cond.getD k false = true := by rw [hc]; exact Bool.false_ne_true
      rw [sustainGo]
      simp only [hc, if_false, Bool.false_eq_true]
      have hhit : sustainHit t cond d k = false := by
        unfold sustainHit
        rw [hc, Bool.false_and]
      rw [List.find?_cons_of_neg _ (by rw [hhit]; exact Bool.false_ne_true)]
      have hst : sustainState t cond (k+1) = none := by
        simp only [sustainState, if_neg hcne]
      rw [← hst, ih (k+1) (by omega)]

lemma first_sustain_eq_spec (t : List ℚ) (cond : List Bool) (d : ℚ)
    (hlen : t.length = cond.length) :
    first_sustain_time t cond d = firstSustainSpec t cond d := by
  rcases cond with _ | ⟨c, cs⟩
  · have ht : t = [] := by
      cases t with
      | nil => rfl
      | cons a as => simp at hlen
    simp [ht, first_sustain_time, firstSustainSpec]
  · have hne : ¬(t.length = 0 ∨ (c :: cs : List Bool).length = 0 ∨
        t.length ≠ (c :: cs : List Bool).length) := by
      simp [hlen]
    rw [first_sustain_time, if_neg hne, firstSustainSpec, List.range_eq_range']
    have h0 : sustainState t (c :: cs) 0 = none := rfl
    rw [← h0]
    have := sustainGo_drop t (c :: cs) d hlen (c :: cs).length 0 (by omega)
    simpa using this

/-- C1: for timestamp and condition sequences of equal length, the sustained
detector `first_sustain_time` returns the timestamp of the START of the first
run of consecutive true values whose elapsed time `t[i] - t[run_start]`
reaches or exceeds `d` (any false value resets the run), and returns `none`
when no run ever reaches duration `d` — this is the content of the
specification-level function `firstSustainSpec`.  In particular, for
`t = [0, 0.05, 0.1, 0.15, 0.2]`, `cond` all true and `d = 0.1` it returns
the run start `0`, not `0.1`. -/
theorem C1_first_sustain_semantics :
    (∀ (t : List ℚ) (cond : List Bool) (d : ℚ), t.length = cond.length →
      first_sustain_time t cond d = firstSustainSpec t cond d) ∧
    first_sustain_time [0, 1/20, 1/10, 3/20, 1/5] [true, true, true, true, true] (1/10) =
      some 0 := by
  constructor
  · exact first_sustain_eq_spec
  · norm_num [first_sustain_time, sustainGo, List.zip_cons_cons]

/-- Closed witness for the hypothesis of `C1_first_sustain_semantics`:
the equivalence applied at a concrete equal-length input. -/
theorem C1_first_sustain_semantics_witness :
    first_sustain_time [0, 1/20, 1/10] [true, false, true] (1/10) =
      firstSustainSpec [0, 1/20, 1/10] [true, false, true] (1/10) :=
  C1_first_sustain_semantics.1 [0, 1/20, 1/10] [true, false, true] (1/10) rfl

/-- C10: `first_cross_time_pos` performs the downward search for EVERY
direction argument other than the exact string "up" — its behaviour then
coincides with direction "down", including for unrecognized values such as
"Up" and the empty string, which are not rejected — while the exact string
"up" selects the upward search.  (For `t = [10,20]`, `y = [5,1]`,
threshold 3: downward finds `y = 1 ≤ 3` at time 20, upward finds
`y = 5 ≥ 3` at time 10.) -/
theorem C10_direction_fallthrough :
    (∀ (t y : List ℚ) (th : ℚ) (dir : String), dir ≠ "up" →
      first_cross_time_pos t y th dir = first_cross_time_pos t y th "down") ∧
    first_cross_time_pos [10, 20] [5, 1] 3 "Up" = Except.ok (some 20) ∧
    first_cross_time_pos [10, 20] [5, 1] 3 "" = Except.ok (some 20) ∧
    first_cross_time_pos [10, 20] [5, 1] 3 "up" = Except.ok (some 10) := by
  refine ⟨?_, ?_, ?_, ?_⟩
  · intro t y th dir h
    simp only [first_cross_time_pos, eq_false h, eq_false (by decide : ¬("down" = "up"))]
  · norm_num [first_cross_time_pos, List.range_succ, List.range_zero,
      eq_false (by decide : ¬("Up" = "up"))]
  · norm_num [first_cross_time_pos, List.range_succ, List.range_zero,
      eq_false (by decide : ¬("" = "up"))]
  · norm_num [first_cross_time_pos, List.range_succ, List.range_zero]

/-- Closed witness for the hypothesis of `C10_direction_fallthrough`:
the fallthrough equation applied at the concrete direction "Down". -/
theorem C10_direction_fallthrough_witness :
    first_cross_time_pos [0] [1] 0 "Down" = first_cross_time_pos [0] [1] 0 "down" :=
  C10_direction_fallthrough.1 [0] [1] 0 "Down" (by decide)

/-- C3 fails on the code: for the mismatched input `t = []`, `y = [0]` with
threshold 0 (a pair of sequences of mismatched length, one of them empty),
`first_cross_time_pos` does not return no event — it raises IndexError,
modelled as the error branch. -/
theorem C3_counterexample_index_error :
    first_cross_time_pos [] [0] 0 "up" = Except.error "IndexError" := by
  norm_num [first_cross_time_pos, List.range_succ, List.range_zero]

lemma first_cross_ok (t y : List ℚ) (th : ℚ) (dir : String)
    (h : y.length ≤ t.length) :
    ∃ r, first_cross_time_pos t y th dir = Except.ok r := by
  have hbody : first_cross_time_pos t y th dir =
      match ((List.range y.length).filter (fun i =>
        if dir = "up" then decide (th ≤ y.getD i 0)
        else decide (y.getD i 0 ≤ th))).head? with
      | none => Except.ok none
      | some i =>
        if i < t.length then Except.ok (some (t.getD i 0)) else Except.error "IndexError" :=
    rfl
  rw [hbody]
  cases hh : ((List.range y.length).filter (fun i =>
      if dir = "up" then decide (th ≤ y.getD i 0)
      else decide (y.getD i 0 ≤ th))).head? with
  | none => exact ⟨none, by simp only [hh]⟩
  | some i =>
    have hmem : i ∈ (List.range y.length).filter (fun i =>
        if dir = "up" then decide (th ≤ y.getD i 0)
        else decide (y.getD i 0 ≤ th)) :=
      List.mem_of_mem_head? (by rw [hh]; exact rfl)
    have hiy : i < y.length := List.mem_range.mp (List.mem_of_mem_filter hmem)
    refine ⟨some (t.getD i 0), ?_⟩
    simp only [hh]
    exact if_pos (lt_of_lt_of_le hiy h)

/-- C3 amended: `first_sustain_time` returns no event (never raises) on empty
or length-mismatched inputs, and `first_cross_time_pos` returns no event when
`y` is empty — but `first_cross_time_pos` is unguarded against length
mismatch: it never errors when `y` is at most as long as `t`, and whenever it
errors (the modelled IndexError) the input was mismatched with `t` strictly
shorter than `y`. -/
theorem C3_amended_no_event :
    (∀ (t : List ℚ) (cond : List Bool) (d : ℚ),
      t = [] ∨ cond = [] ∨ t.length ≠ cond.length → first_sustain_time t cond d = none) ∧
    (∀ (t : List ℚ) (th : ℚ) (dir : String),
      first_cross_time_pos t [] th dir = Except.ok none) ∧
    (∀ (t y : List ℚ) (th : ℚ) (dir : String), y.length ≤ t.length →
      ∃ r, first_cross_time_pos t y th dir = Except.ok r) ∧
    (∀ (t y : List ℚ) (th : ℚ) (dir : String) (e : String),
      first_cross_time_pos t y th dir = Except.error e → t.length < y.length) := by
  refine ⟨?_, ?_, fun t y th dir h => first_cross_ok t y th dir h, ?_⟩
  · intro t cond d h
    rcases h with h | h | h
    · simp [first_sustain_time, h]
    · simp [first_sustain_time, h]
    · simp [first_sustain_time, h]
  · intro t th dir
    rfl
  · intro t y th dir e herr
    by_contra hnot
    have hle : y.length ≤ t.length := by omega
    obtain ⟨r, hr⟩ := first_cross_ok t y th dir hle
    rw [herr] at hr
    exact Except.noConfusion hr

/-- Closed witness for the hypotheses of `C3_amended_no_event`: the no-event
clauses applied at concrete inputs. -/
theorem C3_amended_no_event_witness :
    first_sustain_time [0] [] 1 = none ∧
    (∃ r, first_cross_time_pos [0, 1] [5] 3 "up" = Except.ok r) :=
  ⟨C3_amended_no_event.1 [0] [] 1 (Or.inr (Or.inl rfl)),
   C3_amended_no_event.2.2.1 [0, 1] [5] 3 "up" (by norm_num)⟩

lemma compute_velocity_length (y t : List ℚ) (h2 : 2 ≤ y.length) :
    (compute_velocity y t).length = y.length := by
  simp only [compute_velocity]
  rw [if_neg (by omega), if_neg (by omega), List.length_ofFn]

lemma compute_velocity_getD (y t : List ℚ) (i : ℕ) (h2 : 2 ≤ y.length)
    (hi : i < y.length) :
    (compute_velocity y t).getD i 0 =
      if i = 0 then
        (y.getD 1 0 - y.getD 0 0) / max (t.getD 1 0 - t.getD 0 0) eps
      else if i = y.length - 1 then
        (y.getD (y.length-1) 0 - y.getD (y.length-2) 0) /
          max (t.getD (y.length-1) 0 - t.getD (y.length-2) 0) eps
      else
        (y.getD (i+1) 0 - y.getD (i-1) 0) / max (t.getD (i+1) 0 - t.getD (i-1) 0) eps := by
  simp only [compute_velocity]
  rw [if_neg (by omega), if_neg (by omega)]
  rw [List.getD_eq_getElem _ _ (by rw [List.length_ofFn]; exact hi), List.getElem_ofFn]

/-- C4: for equal-length `y`, `t` of length `n`, `compute_velocity` returns
the empty sequence when `n = 0`, the single element `[0]` when `n = 1`, and
otherwise a sequence of length `n` whose endpoints are the forward/backward
differences guarded by `eps = 1e-12` and whose interior entries are the
central differences; in particular `compute_velocity [0,2,6] [0,1,2] =
[2,3,4]`. -/
theorem C4_compute_velocity :
    (∀ (y t : List ℚ), y.length = t.length →
      (y.length = 0 → compute_velocity y t = []) ∧
      (y.length = 1 → compute_velocity y t = [0]) ∧
      (2 ≤ y.length →
        (compute_velocity y t).length = y.length ∧
        (compute_velocity y t).getD 0 0 =
          (y.getD 1 0 - y.getD 0 0) / max (t.getD 1 0 - t.getD 0 0) eps ∧
        (compute_velocity y t).getD (y.length - 1) 0 =
          (y.getD (y.length-1) 0 - y.getD (y.length-2) 0) /
            max (t.getD (y.length-1) 0 - t.getD (y.length-2) 0) eps ∧
        ∀ i, 1 ≤ i → i ≤ y.length - 2 →
          (compute_velocity y t).getD i 0 =
            (y.getD (i+1) 0 - y.getD (i-1) 0) /
              max (t.getD (i+1) 0 - t.getD (i-1) 0) eps)) ∧
    compute_velocity [0, 2, 6] [0, 1, 2] = [2, 3, 4] := by
  constructor
  · intro y t _hlen
    refine ⟨?_, ?_, fun h2 => ⟨compute_velocity_length y t h2, ?_, ?_, ?_⟩⟩
    · intro h0
      simp only [compute_velocity, if_pos h0]
    · intro h1
      simp only [compute_velocity, h1]
      norm_num
    · rw [compute_velocity_getD y t 0 h2 (by omega), if_pos rfl]
    · rw [compute_velocity_getD y t (y.length - 1) h2 (by omega),
        if_neg (by omega), if_pos rfl]
    · intro i h1 hle
      rw [compute_velocity_getD y t i h2 (by omega), if_neg (by omega), if_neg (by omega)]
  · norm_num [compute_velocity, List.ofFn_succ, max_def, eps]

/-- Closed witness for the hypotheses of `C4_compute_velocity`: the
single-sample clause applied at a concrete input. -/
theorem C4_compute_velocity_witness : compute_velocity [5] [7] = [0] :=
  (C4_compute_velocity.1 [5] [7] rfl).2.1 rfl

/-- Embeds `bell_shape(t, T)` from `stimuli.py` (lines 3-20): the
minimum-jerk easing `10 s^3 - 15 s^4 + 6 s^5` with `s = clip(t/T, 0, 1)`. -/
def bell_shape (t T : ℚ) : ℚ :=
  let s := min (max (t / T) 0) 1
  10 * s^3 - 15 * s^4 + 6 * s^5

/-- Embeds `generate_motion(t, tau, L, T)` from `stimuli.py` (lines 22-49):
hold at `-L/2` before `tau`, follow the bell-shape easing over `[tau, tau+T)`,
hold at `L/2` afterwards. -/
def generate_motion (t tau L T : ℚ) : ℚ :=
  if t < tau then -L/2
  else if t < tau + T then -L/2 + L * bell_shape (t - tau) T
  else L/2

/-- One row of a trial group `g`: the columns `t`, `y_t`, `y_p` used by the
metrics computation (`x_p` is unused by the core; the per-trial constant
columns `trial` and `tau` are carried once on `TrialData`). -/
structure Sample where
  t : ℚ
  y_t : ℚ
  y_p : ℚ

/-- One trial group: the per-trial constants `trial` and `tau` (constant
columns of the grouped DataFrame, read via `iloc[0]`) and the ordered sample
rows. -/
structure TrialData where
  trial : ℤ
  tau : ℚ
  samples : List Sample

/-- The per-trial metrics dictionary returned by
`per_trial_metrics_position_based`; the `NaN` sentinels and `None`
detections are both modelled as `none`. -/
structure TrialMetrics where
  trial : ℤ
  tau : ℚ
  t_start : Option ℚ
  t_end : Option ℚ
  pos_var_start : Option ℚ
  pos_var_end : Option ℚ
  y_end_mean : Option ℚ
  mse_truth : Option ℚ

/-- Arithmetic mean `np.mean` of a list of rationals. -/
def listMean (l : List ℚ) : ℚ := l.sum / l.length

/-- Sample variance `np.var(x, ddof=1)`: mean squared deviation from the
mean with the N−1 denominator. -/
def sampleVar (l : List ℚ) : ℚ :=
  (l.map (fun x => (x - listMean l)^2)).sum / ((l.length : ℚ) - 1)

/-- Values `y[idx]` for `idx = np.where((t >= lo) & (t <= hi))[0]`: the
positions whose timestamp lies in the closed window `[lo, hi]`. -/
def windowVals (t y : List ℚ) (lo hi : ℚ) : List ℚ :=
  ((t.zip y).filter (fun p => decide (lo ≤ p.1) && decide (p.1 ≤ hi))).map Prod.snd

/-- The start-window positions `y_p[idx_start]` (truth-centered window at
`center_start = tau`, half width `poswin_ms/1000`). -/
def winS (g : TrialData) (poswin_ms : ℚ) : List ℚ :=
  windowVals (g.samples.map Sample.t) (g.samples.map Sample.y_p)
    (g.tau - poswin_ms / 1000) (g.tau + poswin_ms / 1000)

/-- The end-window positions `y_p[idx_end]` (truth-centered window at
`center_end = tau + T`, half width `poswin_ms/1000`). -/
def winE (g : TrialData) (poswin_ms T_for_truth : ℚ) : List ℚ :=
  windowVals (g.samples.map Sample.t) (g.samples.map Sample.y_p)
    (g.tau + T_for_truth - poswin_ms / 1000) (g.tau + T_for_truth + poswin_ms / 1000)

/-- The squared tracking errors `(y_p - y_t)**2` over the samples whose
timestamp lies in the closed truth interval `[tau, tau + T]` (the mask
`in_truth` of line 193). -/
def truthWin (g : TrialData) (T_for_truth : ℚ) : List ℚ :=
  g.samples.filterMap (fun s =>
    if g.tau ≤ s.t ∧ s.t ≤ g.tau + T_for_truth then some ((s.y_p - s.y_t)^2) else none)

/-- The metrics record assembled by `per_trial_metrics_position_based`
(lines 168-207): truth-centered windows, sample variances when a window has
more than one sample, end-window mean when nonempty, truth-window MSE when
nonempty (`y_t` is always present in the model: `load_session` drops rows
without it). -/
def mkMetrics (g : TrialData) (poswin_ms T_for_truth : ℚ) (tse : Option ℚ × Option ℚ) :
    TrialMetrics :=
  { trial := g.trial
    tau := g.tau
    t_start := tse.1
    t_end := tse.2
    pos_var_start :=
      if 1 < (winS g poswin_ms).length then some (sampleVar (winS g poswin_ms)) else none
    pos_var_end :=
      if 1 < (winE g poswin_ms T_for_truth).length then
        some (sampleVar (winE g poswin_ms T_for_truth)) else none
    y_end_mean :=
      if 0 < (winE g poswin_ms T_for_truth).length then
        some (listMean (winE g poswin_ms T_for_truth)) else none
    mse_truth :=
      if 0 < (truthWin g T_for_truth).length then
        some (listMean (truthWin g T_for_truth)) else none }

/-- Embeds `per_trial_metrics_position_based` from
`analysis/compute_variance.py` (lines 99-207): pointer velocity over
`(t, y_p)`, start/goal coordinates `-L/2`, `L/2`, velocity-based or
position-threshold detection of `t_start`/`t_end`, then the truth-centered
metrics (`mkMetrics`).  An IndexError escaping `first_cross_time_pos` would
abort the trial, hence the `Except` result. -/
def per_trial_metrics_position_based (g : TrialData)
    (L poswin_ms start_margin_px end_margin_px T_for_truth
      v_start_thresh v_stop_thresh hold_start_ms hold_stop_ms : ℚ)
    (use_velocity_detection : Bool) : Except String TrialMetrics :=
  let t := g.samples.map Sample.t
  let y_p := g.samples.map Sample.y_p
  let v_p := compute_velocity y_p t
  let y_start := -L/2
  let y_goal := L/2
  let detected : Except String (Option ℚ × Option ℚ) :=
    if use_velocity_detection then
      Except.ok
        (first_sustain_time t (v_p.map (fun v => decide (v_start_thresh ≤ v)))
          (hold_start_ms / 1000),
         first_sustain_time t (v_p.map (fun v => decide (|v| ≤ v_stop_thresh)))
          (hold_stop_ms / 1000))
    else do
      let ts ← first_cross_time_pos t y_p (y_start + start_margin_px) "up"
      let te ← first_cross_time_pos t y_p (y_goal - end_margin_px) "up"
      pure (ts, te)
  detected.map (mkMetrics g poswin_ms T_for_truth)

/-- The `TrialMetrics` value produced by a successful run of
`per_trial_metrics_position_based`; by `per_trial_ok` the run never errors,
so this is always the actual result. -/
def per_trialRun (g : TrialData)
    (L poswin_ms start_margin_px end_margin_px T_for_truth
      v_start_thresh v_stop_thresh hold_start_ms hold_stop_ms : ℚ)
    (use_velocity_detection : Bool) : TrialMetrics :=
  match per_trial_metrics_position_based g L poswin_ms start_margin_px end_margin_px
      T_for_truth v_start_thresh v_stop_thresh hold_start_ms hold_stop_ms
      use_velocity_detection with
  | Except.ok m => m
  | Except.error _ => mkMetrics g poswin_ms T_for_truth (none, none)

lemma per_trial_ok (g : TrialData) (L pw sm em T vs vst hs hst : ℚ) (b : Bool) :
    ∃ tse, per_trial_metrics_position_based g L pw sm em T vs vst hs hst b =
      Except.ok (mkMetrics g pw T tse) := by
  cases b with
  | true => exact ⟨_, rfl⟩
  | false =>
    obtain ⟨r1, h1⟩ := first_cross_ok (g.samples.map Sample.t) (g.samples.map Sample.y_p)
      (-L/2 + sm) "up" (by simp)
    obtain ⟨r2, h2⟩ := first_cross_ok (g.samples.map Sample.t) (g.samples.map Sample.y_p)
      (L/2 - em) "up" (by simp)
    refine ⟨(r1, r2), ?_⟩
    simp only [per_trial_metrics_position_based, Bool.false_eq_true, if_false, h1, h2]
    rfl

lemma per_trialRun_shape (g : TrialData) (L pw sm em T vs vst hs hst : ℚ) (b : Bool) :
    ∃ tse, per_trialRun g L pw sm em T vs vst hs hst b = mkMetrics g pw T tse := by
  obtain ⟨tse, h⟩ := per_trial_ok g L pw sm em T vs vst hs hst b
  exact ⟨tse, by simp only [per_trialRun, h]⟩

/-- C7: the truth-centered outputs `pos_var_start`, `pos_var_end`,
`y_end_mean` and `mse_truth` of `per_trial_metrics_position_based` depend
only on the trial data (with its `tau`), `T` and `poswin_ms`: two runs on the
same trial differing only in the detection configuration
(`use_velocity_detection` and the margins, velocity thresholds and hold
durations) produce identical values for those four fields — and both runs
succeed (no error). -/
theorem C7_truth_metrics_detection_independent :
    ∀ (g : TrialData) (L pw T : ℚ)
      (sm₁ em₁ vs₁ vst₁ hs₁ hst₁ : ℚ) (b₁ : Bool)
      (sm₂ em₂ vs₂ vst₂ hs₂ hst₂ : ℚ) (b₂ : Bool),
      (∃ m₁, per_trial_metrics_position_based g L pw sm₁ em₁ T vs₁ vst₁ hs₁ hst₁ b₁ =
        Except.ok m₁) ∧
      (per_trialRun g L pw sm₁ em₁ T vs₁ vst₁ hs₁ hst₁ b₁).pos_var_start =
        (per_trialRun g L pw sm₂ em₂ T vs₂ vst₂ hs₂ hst₂ b₂).pos_var_start ∧
      (per_trialRun g L pw sm₁ em₁ T vs₁ vst₁ hs₁ hst₁ b₁).pos_var_end =
        (per_trialRun g L pw sm₂ em₂ T vs₂ vst₂ hs₂ hst₂ b₂).pos_var_end ∧
      (per_trialRun g L pw sm₁ em₁ T vs₁ vst₁ hs₁ hst₁ b₁).y_end_mean =
        (per_trialRun g L pw sm₂ em₂ T vs₂ vst₂ hs₂ hst₂ b₂).y_end_mean ∧
      (per_trialRun g L pw sm₁ em₁ T vs₁ vst₁ hs₁ hst₁ b₁).mse_truth =
        (per_trialRun g L pw sm₂ em₂ T vs₂ vst₂ hs₂ hst₂ b₂).mse_truth := by
  intro g L pw T sm₁ em₁ vs₁ vst₁ hs₁ hst₁ b₁ sm₂ em₂ vs₂ vst₂ hs₂ hst₂ b₂
  obtain ⟨tse₁, h₁⟩ := per_trial_ok g L pw sm₁ em₁ T vs₁ vst₁ hs₁ hst₁ b₁
  obtain ⟨tse₁r, h₁r⟩ := per_trialRun_shape g L pw sm₁ em₁ T vs₁ vst₁ hs₁ hst₁ b₁
  obtain ⟨tse₂r, h₂r⟩ := per_trialRun_shape g L pw sm₂ em₂ T vs₂ vst₂ hs₂ hst₂ b₂
  exact ⟨⟨_, h₁⟩, by rw [h₁r, h₂r]; rfl, by rw [h₁r, h₂r]; rfl,
    by rw [h₁r, h₂r]; rfl, by rw [h₁r, h₂r]; rfl⟩

/-- Positions `y_p` of the samples whose timestamp lies in the closed start
window `[tau - w, tau + w]` with `w = poswin_ms/1000`.  Written from the
words of the claim, over the sample rows directly. -/
def startWindowPositions (g : TrialData) (pw : ℚ) : List ℚ :=
  (g.samples.filter (fun s =>
    decide (g.tau - pw/1000 ≤ s.t) && decide (s.t ≤ g.tau + pw/1000))).map Sample.y_p

/-- Positions `y_p` of the samples whose timestamp lies in the closed end
window `[tau + T - w, tau + T + w]` with `w = poswin_ms/1000`.  Written from
the words of the claim. -/
def endWindowPositions (g : TrialData) (pw T : ℚ) : List ℚ :=
  (g.samples.filter (fun s =>
    decide (g.tau + T - pw/1000 ≤ s.t) && decide (s.t ≤ g.tau + T + pw/1000))).map Sample.y_p

/-- Squared deviations `(y_p - y_t)^2` of the samples whose timestamp lies in
the closed interval `[tau, tau + T]`.  Written from the words of the claim. -/
def truthWindowSqErrors (g : TrialData) (T : ℚ) : List ℚ :=
  (g.samples.filter (fun s => decide (g.tau ≤ s.t) && decide (s.t ≤ g.tau + T))).map
    (fun s => (s.y_p - s.y_t)^2)

lemma windowVals_samples (g : TrialData) (lo hi : ℚ) :
    windowVals (g.samples.map Sample.t) (g.samples.map Sample.y_p) lo hi =
      (g.samples.filter (fun s => decide (lo ≤ s.t) && decide (s.t ≤ hi))).map Sample.y_p := by
  unfold windowVals
  rw [List.zip_map', List.filter_map, List.map_map]
  rfl

lemma winS_eq (g : TrialData) (pw : ℚ) : winS g pw = startWindowPositions g pw :=
  windowVals_samples g (g.tau - pw/1000) (g.tau + pw/1000)

lemma winE_eq (g : TrialData) (pw T : ℚ) : winE g pw T = endWindowPositions g pw T :=
  windowVals_samples g (g.tau + T - pw/1000) (g.tau + T + pw/1000)

lemma truthWin_eq (g : TrialData) (T : ℚ) : truthWin g T = truthWindowSqErrors g T := by
  unfold truthWin truthWindowSqErrors
  induction g.samples with
  | nil => rfl
  | cons a l ih =>
    by_cases h : g.tau ≤ a.t ∧ a.t ≤ g.tau + T
    · simp only [List.filterMap_cons, List.filter_cons, if_pos h, ih,
        decide_eq_true h.1, decide_eq_true h.2, Bool.and_self, if_pos trivial, List.map_cons]
    · rcases not_and_or.mp h with h1 | h1
      · simp only [List.filterMap_cons, List.filter_cons, if_neg h, ih,
          decide_eq_false h1, Bool.false_and, Bool.false_eq_true, if_false]
      · simp only [List.filterMap_cons, List.filter_cons, if_neg h, ih,
          decide_eq_false h1, Bool.and_false, Bool.false_eq_true, if_false]

/-- Trial with tau = 0 whose start window `[-0.1, 0.1]` (default
`poswin_ms = 100`) contains exactly one sample. -/
def oneSampleWindowTrial : TrialData :=
  { trial := 1, tau := 0,
    samples := [{ t := 0, y_t := 0, y_p := 5 }, { t := 1, y_t := 0, y_p := 7 }] }

/-- C5: for every trial and configuration, `pos_var_start` / `pos_var_end`
equal the sample variance (N−1 denominator) of `y_p` over the samples whose
timestamp lies in the closed truth-centered window `[center - w, center + w]`
(`center = tau`, resp. `tau + T`; `w = poswin_ms/1000`), and each is
undefined (`none`, not zero) when the window holds fewer than 2 samples — in
particular a window holding exactly 1 sample yields `none`. -/
theorem C5_position_variance :
    (∀ (g : TrialData) (L pw sm em T vs vst hs hst : ℚ) (b : Bool),
      (per_trialRun g L pw sm em T vs vst hs hst b).pos_var_start =
        (if 2 ≤ (startWindowPositions g pw).length then
          some (sampleVar (startWindowPositions g pw)) else none) ∧
      (per_trialRun g L pw sm em T vs vst hs hst b).pos_var_end =
        (if 2 ≤ (endWindowPositions g pw T).length then
          some (sampleVar (endWindowPositions g pw T)) else none)) ∧
    (per_trialRun oneSampleWindowTrial 400 100 20 20 1 50 20 80 100 true).pos_var_start =
      none := by
  constructor
  · intro g L pw sm em T vs vst hs hst b
    obtain ⟨tse, h⟩ := per_trialRun_shape g L pw sm em T vs vst hs hst b
    rw [h]
    constructor
    · show (if 1 < (winS g pw).length then some (sampleVar (winS g pw)) else none) = _
      rw [winS_eq]
      rfl
    · show (if 1 < (winE g pw T).length then some (sampleVar (winE g pw T)) else none) = _
      rw [winE_eq]
      rfl
  · obtain ⟨tse, h⟩ := per_trialRun_shape oneSampleWindowTrial 400 100 20 20 1 50 20 80 100 true
    rw [h]
    have hw : winS oneSampleWindowTrial 100 = [5] := by
      rw [winS_eq]
      norm_num [startWindowPositions, oneSampleWindowTrial]
    show (if 1 < (winS oneSampleWindowTrial 100).length then
      some (sampleVar (winS oneSampleWindowTrial 100)) else none) = none
    rw [hw]
    rfl

/-- Trial with tau = 1/2, T = 1, whose two samples sit exactly at the
endpoints `t = tau` and `t = tau + T` of the truth interval. -/
def endpointTrial : TrialData :=
  { trial := 1, tau := 1/2,
    samples := [{ t := 1/2, y_t := 0, y_p := 3 }, { t := 3/2, y_t := 1, y_p := 2 }] }

/-- C6: for every trial and configuration, `mse_truth` equals the arithmetic
mean of `(y_p - y_t)^2` over exactly the samples whose timestamp lies in the
closed interval `[tau, tau + T]` — samples at either endpoint included — and
is undefined (`none`) when no sample falls in the interval.  In the concrete
trial both samples sit exactly at the endpoints and both contribute:
`mse_truth = ((3-0)^2 + (2-1)^2)/2 = 5`. -/
theorem C6_mse_truth_window :
    (∀ (g : TrialData) (L pw sm em T vs vst hs hst : ℚ) (b : Bool),
      (per_trialRun g L pw sm em T vs vst hs hst b).mse_truth =
        (if 0 < (truthWindowSqErrors g T).length then
          some (listMean (truthWindowSqErrors g T)) else none)) ∧
    (per_trialRun endpointTrial 400 100 20 20 1 50 20 80 100 true).mse_truth = some 5 := by
  constructor
  · intro g L pw sm em T vs vst hs hst b
    obtain ⟨tse, h⟩ := per_trialRun_shape g L pw sm em T vs vst hs hst b
    rw [h]
    show (if 0 < (truthWin g T).length then some (listMean (truthWin g T)) else none) = _
    rw [truthWin_eq]
  · obtain ⟨tse, h⟩ := per_trialRun_shape endpointTrial 400 100 20 20 1 50 20 80 100 true
    rw [h]
    have hw : truthWin endpointTrial 1 = [9, 1] := by
      simp only [truthWin, endpointTrial, List.filterMap_cons, List.filterMap_nil]
      norm_num
    show (if 0 < (truthWin endpointTrial 1).length then
      some (listMean (truthWin endpointTrial 1)) else none) = some 5
    rw [hw]
    norm_num [listMean]

lemma getD_map {α β : Type} (f : α → β) (l : List α) (i : ℕ) (d : β) (e : α)
    (hi : i < l.length) : (l.map f).getD i d = f (l.getD i e) := by
  rw [List.getD_eq_getElem _ _ (by simpa using hi), List.getD_eq_getElem _ _ hi,
    List.getElem_map]

lemma getD_map_range {β : Type} (g : ℕ → β) (d : β) (n k : ℕ) (hk : k < n) :
    ((List.range n).map g).getD k d = g k := by
  rw [List.getD_eq_getElem _ _ (by simpa using hk), List.getElem_map, List.getElem_range]

lemma find?_range'_first (p : ℕ → Bool) :
    ∀ (m s i : ℕ), s ≤ i → i < s + m → p i = true →
      (∀ j, s ≤ j → j < i → p j = false) →
      (List.range' s m).find? p = some i := by
  intro m
  induction m with
  | zero => intro s i h1 h2 _ _; omega
  | succ m ih =>
    intro s i h1 h2 hp hprev
    rw [List.range'_succ]
    by_cases hsi : s = i
    · subst hsi
      rw [List.find?_cons_of_pos _ hp]
    · have hps : p s = false := hprev s le_rfl (by omega)
      rw [List.find?_cons_of_neg _ (by rw [hps]; exact Bool.false_ne_true)]
      exact ih (s+1) i (by omega) (by omega) hp (fun j hj1 hj2 => hprev j (by omega) hj2)

lemma find?_range_first (p : ℕ → Bool) (n i : ℕ) (hi : i < n) (hp : p i = true)
    (hprev : ∀ j, j < i → p j = false) : (List.range n).find? p = some i := by
  rw [List.range_eq_range']
  exact find?_range'_first p n 0 i (by omega) (by omega) hp (fun j _ hj => hprev j hj)

/-- Synthetic trial of C2: 120 samples at 60 per second over two seconds,
`tau = 1/2`, `L = 400`, `T = 1`, with the pointer perfectly tracking the
ideal minimum-jerk trajectory (`y_p = y_t = generate_motion`). -/
def synthTrial : TrialData :=
  { trial := 1, tau := 1/2,
    samples := (List.range 120).map (fun (k : ℕ) =>
      { t := (k : ℚ) / 60,
        y_t := generate_motion ((k : ℚ) / 60) (1/2) 400 1,
        y_p := generate_motion ((k : ℚ) / 60) (1/2) 400 1 }) }

/-- Timestamp column of the synthetic trial. -/
def synthT : List ℚ := synthTrial.samples.map Sample.t

/-- Pointer-position column of the synthetic trial. -/
def synthY : List ℚ := synthTrial.samples.map Sample.y_p

/-- Pointer velocity of the synthetic trial. -/
def synthV : List ℚ := compute_velocity synthY synthT

/-- Stop condition `|v| <= v_stop` of the synthetic trial with the default
`v_stop = 20`. -/
def synthCondStop : List Bool := synthV.map (fun v => decide (|v| ≤ (20:ℚ)))

lemma synth_t_map : synthT = (List.range 120).map (fun (k : ℕ) => (k : ℚ) / 60) := by
  simp only [synthT, synthTrial, List.map_map]
  rfl

lemma synth_y_map :
    synthY = (List.range 120).map (fun (k : ℕ) => generate_motion ((k : ℚ) / 60) (1/2) 400 1) := by
  simp only [synthY, synthTrial, List.map_map]
  rfl

lemma synth_t_len : synthT.length = 120 := by
  rw [synth_t_map, List.length_map, List.length_range]

lemma synth_y_len : synthY.length = 120 := by
  rw [synth_y_map, List.length_map, List.length_range]

lemma synth_v_len : synthV.length = 120 := by
  rw [synthV, compute_velocity_length _ _ (by rw [synth_y_len]; omega), synth_y_len]

lemma synth_cond_len : synthCondStop.length = 120 := by
  rw [synthCondStop, List.length_map, synth_v_len]

lemma synth_t_getD (k : ℕ) (hk : k < 120) : synthT.getD k 0 = (k : ℚ) / 60 := by
  rw [synth_t_map, getD_map_range _ _ _ _ hk]

lemma synth_y_pre (k : ℕ) (hk : k < 30) :
    generate_motion ((k : ℚ) / 60) (1/2) 400 1 = -200 := by
  have hk' : (k : ℚ) < 30 := by exact_mod_cast hk
  unfold generate_motion
  rw [if_pos (by linarith)]
  norm_num

lemma synth_v_small (i : ℕ) (hi : i < 29) : synthV.getD i 0 = 0 := by
  have h2 : 2 ≤ synthY.length := by rw [synth_y_len]; omega
  rw [synthV, compute_velocity_getD _ _ i h2 (by rw [synth_y_len]; omega)]
  by_cases h0 : i = 0
  · subst h0
    rw [if_pos rfl, synth_y_map, getD_map_range _ _ _ _ (by norm_num),
      getD_map_range _ _ _ _ (by norm_num), synth_y_pre 1 (by norm_num),
      synth_y_pre 0 (by norm_num)]
    norm_num
  · rw [if_neg h0, if_neg (by rw [synth_y_len]; omega), synth_y_map,
      getD_map_range _ _ _ _ (by omega), getD_map_range _ _ _ _ (by omega),
      synth_y_pre (i+1) (by omega), synth_y_pre (i-1) (by omega)]
    norm_num

lemma synth_cond_stop_true (i : ℕ) (hi : i < 29) : synthCondStop.getD i false = true := by
  rw [synthCondStop, getD_map _ _ i false 0 (by rw [synth_v_len]; omega),
    synth_v_small i hi]
  norm_num

lemma synth_runstart_stop : ∀ i, i ≤ 29 → run_start synthCondStop i = 0 := by
  intro i
  induction i with
  | zero => intro _; rfl
  | succ j ih =>
    intro hj
    have hcj : synthCondStop.getD j false = true := synth_cond_stop_true j (by omega)
    simp only [run_start, if_pos hcj]
    exact ih (by omega)

lemma synth_hit_lt (i : ℕ) (hi : i < 6) :
    sustainHit synthT synthCondStop (100/1000) i = false := by
  unfold sustainHit
  rw [synth_cond_stop_true i (by omega), Bool.true_and,
    synth_runstart_stop i (by omega), synth_t_getD i (by omega), synth_t_getD 0 (by omega)]
  apply decide_eq_false
  have hi' : (i : ℚ) ≤ 5 := by exact_mod_cast (by omega : i ≤ 5)
  push_cast
  intro hcon
  linarith

lemma synth_hit_6 : sustainHit synthT synthCondStop (100/1000) 6 = true := by
  unfold sustainHit
  rw [synth_cond_stop_true 6 (by omega), Bool.true_and, synth_runstart_stop 6 (by omega),
    synth_t_getD 6 (by omega), synth_t_getD 0 (by omega)]
  apply decide_eq_true
  push_cast
  norm_num

lemma synth_t_end : first_sustain_time synthT synthCondStop (100/1000) = some 0 := by
  rw [first_sustain_eq_spec _ _ _ (by rw [synth_t_len, synth_cond_len])]
  unfold firstSustainSpec
  rw [synth_cond_len,
    find?_range_first _ 120 6 (by omega) synth_hit_6 (fun j hj => synth_hit_lt j hj),
    Option.map_some', synth_runstart_stop 6 (by omega), synth_t_getD 0 (by omega)]
  norm_num

lemma per_trialRun_t_end_velocity (g : TrialData) (L pw sm em T vs vst hs hst : ℚ) :
    (per_trialRun g L pw sm em T vs vst hs hst true).t_end =
      first_sustain_time (g.samples.map Sample.t)
        ((compute_velocity (g.samples.map Sample.y_p) (g.samples.map Sample.t)).map
          (fun v => decide (|v| ≤ vst))) (hst / 1000) := rfl

lemma synth_truthWin_zero : ∀ x ∈ truthWin synthTrial 1, x = 0 := by
  intro x hx
  unfold truthWin at hx
  obtain ⟨s, hs, hfs⟩ := List.mem_filterMap.mp hx
  have hys : s.y_p = s.y_t := by
    simp only [synthTrial] at hs
    obtain ⟨k, _, rfl⟩ := List.mem_map.mp hs
    rfl
  by_cases hcond : synthTrial.tau ≤ s.t ∧ s.t ≤ synthTrial.tau + 1
  · rw [if_pos hcond] at hfs
    rw [← Option.some.inj hfs, hys, sub_self]
    norm_num
  · rw [if_neg hcond] at hfs
    exact absurd hfs (by simp)

lemma synth_truthWin_pos : 0 < (truthWin synthTrial 1).length := by
  have hmem : (0:ℚ) ∈ truthWin synthTrial 1 := by
    have hs30 : Sample.mk (((30:ℕ) : ℚ) / 60)
        (generate_motion (((30:ℕ) : ℚ) / 60) (1/2) 400 1)
        (generate_motion (((30:ℕ) : ℚ) / 60) (1/2) 400 1) ∈ synthTrial.samples := by
      simp only [synthTrial]
      exact List.mem_map.mpr ⟨30, List.mem_range.mpr (by omega), rfl⟩
    unfold truthWin
    apply List.mem_filterMap.mpr
    refine ⟨_, hs30, ?_⟩
    simp only [synthTrial]
    push_cast
    norm_num [sub_self]
  exact List.length_pos_of_mem hmem

lemma listMean_zero (l : List ℚ) (h : ∀ x ∈ l, x = 0) : listMean l = 0 := by
  unfold listMean
  rw [List.sum_eq_zero h, zero_div]

/-- C2 evaluation at the failing input: on the perfectly tracking synthetic
trial (`L = 400`, `T = 1`, `tau = 1/2`, 60 samples per second) with the
default configuration, the code returns `t_end = 0` — the pre-motion
stillness run starting at `t = 0` satisfies `|v| <= v_stop` for the whole
hold duration — so `t_end` is NOT within one hold duration (0.1 s) of
`tau + T = 3/2` as the claim requires; `mse_truth = 0` does hold. -/
theorem C2_synthetic_trial_detection :
    (per_trialRun synthTrial 400 100 20 20 1 50 20 80 100 true).t_end = some 0 ∧
    (per_trialRun synthTrial 400 100 20 20 1 50 20 80 100 true).mse_truth = some 0 ∧
    ¬(|(0:ℚ) - (1/2 + 1)| ≤ 100/1000) := by
  refine ⟨?_, ?_, ?_⟩
  · rw [per_trialRun_t_end_velocity]
    exact synth_t_end
  · obtain ⟨tse, h⟩ := per_trialRun_shape synthTrial 400 100 20 20 1 50 20 80 100 true
    rw [h]
    show (if 0 < (truthWin synthTrial 1).length then
      some (listMean (truthWin synthTrial 1)) else none) = some 0
    rw [if_pos synth_truthWin_pos, listMean_zero _ synth_truthWin_zero]
  · rw [abs_of_nonpos (by norm_num)]
    norm_num

/-- One row of the per-trial metrics table `df_trials`: a metrics record plus
the `participant`/`condition` keys appended by `main` (lines 268-269).  The
`trial` entry (inside `metrics`) is an always-present integer, as in the
code, where `int(...)` has produced it for every row. -/
structure TrialRow where
  participant : String
  condition : String
  metrics : TrialMetrics

/-- One row of the per-condition summary table.  The standard deviations live
in `ℝ` because pandas `std` takes a square root. -/
structure CondSummary where
  participant : String
  condition : String
  n_trials : ℕ
  t_start_mean : Option ℚ
  t_start_std : Option ℝ
  t_end_mean : Option ℚ
  t_end_std : Option ℝ
  pos_var_start_mean : Option ℚ
  pos_var_start_std : Option ℝ
  pos_var_end_mean : Option ℚ
  pos_var_end_std : Option ℝ
  y_end_mean_mean : Option ℚ
  y_end_mean_std : Option ℝ
  mse_truth_mean : Option ℚ
  mse_truth_std : Option ℝ

/-- The defined (non-NaN, non-None) values of an optional metric column. -/
def definedVals (l : List (Option ℚ)) : List ℚ := l.filterMap id

/-- pandas `mean` aggregation: arithmetic mean of the defined values of the
column, NaN (modelled `none`) when no value is defined. -/
def aggMean (l : List (Option ℚ)) : Option ℚ :=
  if (definedVals l).length = 0 then none else some (listMean (definedVals l))

/-- pandas `std` aggregation: sample standard deviation (square root of the
N−1 sample variance) of the defined values of the column, NaN (modelled
`none`) when fewer than two values are defined. -/
noncomputable def aggStd (l : List (Option ℚ)) : Option ℝ :=
  if (definedVals l).length < 2 then none
  else some (Real.sqrt ((sampleVar (definedVals l) : ℚ) : ℝ))

/-- Aggregation of one `(participant, condition)` group by
`summarize_by_condition` (lines 211-240): `n_trials` is the pandas count of
the `trial` column, which counts every row because `trial` is never missing;
each metric column gets its pandas mean and sample standard deviation over
the defined values only. -/
noncomputable def summarizeGroup (p c : String) (rows : List TrialRow) : CondSummary :=
  { participant := p
    condition := c
    n_trials := rows.length
    t_start_mean := aggMean (rows.map (fun r => r.metrics.t_start))
    t_start_std := aggStd (rows.map (fun r => r.metrics.t_start))
    t_end_mean := aggMean (rows.map (fun r => r.metrics.t_end))
    t_end_std := aggStd (rows.map (fun r => r.metrics.t_end))
    pos_var_start_mean := aggMean (rows.map (fun r => r.metrics.pos_var_start))
    pos_var_start_std := aggStd (rows.map (fun r => r.metrics.pos_var_start))
    pos_var_end_mean := aggMean (rows.map (fun r => r.metrics.pos_var_end))
    pos_var_end_std := aggStd (rows.map (fun r => r.metrics.pos_var_end))
    y_end_mean_mean := aggMean (rows.map (fun r => r.metrics.y_end_mean))
    y_end_mean_std := aggStd (rows.map (fun r => r.metrics.y_end_mean))
    mse_truth_mean := aggMean (rows.map (fun r => r.metrics.mse_truth))
    mse_truth_std := aggStd (rows.map (fun r => r.metrics.mse_truth)) }

/-- Group keys in order of first appearance.  (pandas `groupby` sorts the
keys; every claim here is about the content of a group, not the order of the
summary rows, so first-appearance order is used.) -/
def groupKeys (rows : List TrialRow) : List (String × String) :=
  (rows.map (fun r => (r.participant, r.condition))).dedup

/-- Embeds `summarize_by_condition` (lines 211-240): one aggregated row per
`(participant, condition)` group of the per-trial table. -/
noncomputable def summarize_by_condition (rows : List TrialRow) : List CondSummary :=
  (groupKeys rows).map (fun pc =>
    summarizeGroup pc.1 pc.2 (rows.filter (fun r =>
      decide (r.participant = pc.1) && decide (r.condition = pc.2))))

/-- Row of the C8 example group, with the given `t_start` and all other
metric fields undefined. -/
def exampleRow (ts : Option ℚ) : TrialRow :=
  TrialRow.mk "P1" "A" (TrialMetrics.mk 1 0 ts none none none none none)

/-- The C8 example group: three trials with `t_start` values
`[0.5, undefined, 0.7]`. -/
def exampleRows : List TrialRow :=
  [exampleRow (some (1/2)), exampleRow none, exampleRow (some (7/10))]

/-- C8: for every `(participant, condition)` group, the summarizer reports
`n_trials` as the count of ALL rows of the group, while each metric column's
mean uses exactly the defined values (undefined when none exist) and its
sample standard deviation (N−1, via the square root of `sampleVar`) uses
exactly the defined values and is undefined precisely when fewer than 2 of
them exist.  For the example group with `t_start` values
`[0.5, undefined, 0.7]`: one summary row, `n_trials = 3`, mean `0.6` and
standard deviation `sqrt(1/50)` over the two defined values. -/
theorem C8_summary_aggregation :
    (∀ l : List (Option ℚ),
      aggMean l = (if (l.filterMap id).length = 0 then none
        else some (listMean (l.filterMap id))) ∧
      (aggStd l = none ↔ (l.filterMap id).length < 2) ∧
      (2 ≤ (l.filterMap id).length →
        aggStd l = some (Real.sqrt ((sampleVar (l.filterMap id) : ℚ) : ℝ)))) ∧
    (∀ (p c : String) (rows : List TrialRow),
      (summarizeGroup p c rows).n_trials = rows.length ∧
      (summarizeGroup p c rows).t_start_mean = aggMean (rows.map (fun r => r.metrics.t_start)) ∧
      (summarizeGroup p c rows).t_start_std = aggStd (rows.map (fun r => r.metrics.t_start)) ∧
      (summarizeGroup p c rows).t_end_mean = aggMean (rows.map (fun r => r.metrics.t_end)) ∧
      (summarizeGroup p c rows).t_end_std = aggStd (rows.map (fun r => r.metrics.t_end)) ∧
      (summarizeGroup p c rows).pos_var_start_mean =
        aggMean (rows.map (fun r => r.metrics.pos_var_start)) ∧
      (summarizeGroup p c rows).pos_var_start_std =
        aggStd (rows.map (fun r => r.metrics.pos_var_start)) ∧
      (summarizeGroup p c rows).pos_var_end_mean =
        aggMean (rows.map (fun r => r.metrics.pos_var_end)) ∧
      (summarizeGroup p c rows).pos_var_end_std =
        aggStd (rows.map (fun r => r.metrics.pos_var_end)) ∧
      (summarizeGroup p c rows).y_end_mean_mean =
        aggMean (rows.map (fun r => r.metrics.y_end_mean)) ∧
      (summarizeGroup p c rows).y_end_mean_std =
        aggStd (rows.map (fun r => r.metrics.y_end_mean)) ∧
      (summarizeGroup p c rows).mse_truth_mean =
        aggMean (rows.map (fun r => r.metrics.mse_truth)) ∧
      (summarizeGroup p c rows).mse_truth_std =
        aggStd (rows.map (fun r => r.metrics.mse_truth))) ∧
    summarize_by_condition exampleRows = [summarizeGroup "P1" "A" exampleRows] ∧
    (summarizeGroup "P1" "A" exampleRows).n_trials = 3 ∧
    (summarizeGroup "P1" "A" exampleRows).t_start_mean = some (3/5) ∧
    (summarizeGroup "P1" "A" exampleRows).t_start_std = some (Real.sqrt (1/50)) := by
  refine ⟨?_, ?_, ?_, rfl, ?_, ?_⟩
  · intro l
    refine ⟨rfl, ?_, ?_⟩
    · unfold aggStd definedVals
      by_cases h : (l.filterMap id).length < 2
      · simp [h]
      · simp [h]
    · intro h2
      unfold aggStd definedVals
      rw [if_neg (by omega)]
  · intro p c rows
    exact ⟨rfl, rfl, rfl, rfl, rfl, rfl, rfl, rfl, rfl, rfl, rfl, rfl, rfl⟩
  · simp [summarize_by_condition, groupKeys, exampleRows, exampleRow]
  · show aggMean (exampleRows.map (fun r => r.metrics.t_start)) = some (3/5)
    have hmap : exampleRows.map (fun r => r.metrics.t_start) =
      [some (1/2), none, some (7/10)] := rfl
    have hdef : definedVals [some (1/2 : ℚ), none, some (7/10)] = [1/2, 7/10] := rfl
    rw [hmap]
    unfold aggMean
    rw [hdef]
    norm_num [listMean]
  · show aggStd (exampleRows.map (fun r => r.metrics.t_start)) = some (Real.sqrt (1/50))
    have hmap : exampleRows.map (fun r => r.metrics.t_start) =
      [some (1/2), none, some (7/10)] := rfl
    have hdef : definedVals [some (1/2 : ℚ), none, some (7/10)] = [1/2, 7/10] := rfl
    have hvar : sampleVar [1/2, 7/10] = 1/50 := by
      norm_num [sampleVar, listMean]
    rw [hmap]
    unfold aggStd
    rw [hdef, hvar, if_neg (by norm_num)]
    norm_num

/-- Closed witness for the hypothesis of `C8_summary_aggregation`: the
standard-deviation clause applied to the example column with two defined
values. -/
theorem C8_summary_aggregation_witness :
    aggStd [some (1/2 : ℚ), none, some (7/10)] =
      some (Real.sqrt ((sampleVar (([some (1/2 : ℚ), none, some (7/10)] :
        List (Option ℚ)).filterMap id) : ℚ) : ℝ)) :=
  (C8_summary_aggregation.1 [some (1/2), none, some (7/10)]).2.2 (by decide)

/-- One raw CSV row after the type coercions of `load_session` (lines 23-30):
`pd.to_numeric(..., errors="coerce")` turns non-parseable cells into missing
values, so every cell is already typed-or-missing here; `trial` is the
`Int64` column. -/
structure RawRow where
  participant : Option String
  condition : Option String
  trial : Option ℤ
  tau : Option ℚ
  t : Option ℚ
  y_t : Option ℚ
  x_p : Option ℚ
  y_p : Option ℚ

/-- A raw CSV table: the set of column names present in the file, and the
rows (a cell of an absent column is never read). -/
structure RawTable where
  cols : List String
  rows : List RawRow

/-- One cleaned row of the session table: the six numeric fields are
guaranteed present; `astype(str)` turns a missing `participant`/`condition`
into the string "nan". -/
structure CleanRow where
  participant : String
  condition : String
  trial : ℤ
  tau : ℚ
  t : ℚ
  y_t : ℚ
  x_p : ℚ
  y_p : ℚ

/-- The required columns of the session CSV. -/
def requiredCols : List String :=
  ["participant", "condition", "trial", "tau", "t", "y_t", "x_p", "y_p"]

/-- The `dropna(subset=...)` column list of line 31. -/
def dropnaSubset : List String := ["trial", "tau", "t", "y_t", "x_p", "y_p"]

/-- A row passes `dropna(subset=["trial","tau","t","y_t","x_p","y_p"])` when
all six cells are present; `astype(str)` renders missing key cells as
"nan". -/
def dropIncomplete (r : RawRow) : Option CleanRow :=
  match r.trial, r.tau, r.t, r.y_t, r.x_p, r.y_p with
  | some trial, some tau, some t, some y_t, some x_p, some y_p =>
    some (CleanRow.mk (r.participant.getD "nan") (r.condition.getD "nan")
      trial tau t y_t x_p y_p)
  | _, _, _, _, _, _ => none

/-- Embeds `load_session` (lines 8-32).  The code reads
`df["participant"]` and `df["condition"]` unconditionally (a KeyError names
the column when it is absent), coerces the numeric columns only `if c in
df.columns`, and then calls `dropna(subset=[...])`, which raises a KeyError
naming the subset columns missing from the table.  The raised KeyError is
modelled as `Except.error` carrying the missing column names. -/
def load_session (tbl : RawTable) : Except (List String) (List CleanRow) :=
  if "participant" ∉ tbl.cols then Except.error ["participant"]
  else if "condition" ∉ tbl.cols then Except.error ["condition"]
  else
    match dropnaSubset.filter (fun c => decide (c ∉ tbl.cols)) with
    | [] => Except.ok (tbl.rows.filterMap dropIncomplete)
    | missing => Except.error missing

/-- C9: when any required column is wholly absent, the session loader fails
with an error identifying missing required column(s) (the pandas KeyError
realising the SchemaError of the design); when all required columns are
present it returns the cleaned table, excluding exactly the rows missing any
of `trial`, `tau`, `t`, `y_t`, `x_p`, `y_p`. -/
theorem C9_load_session_schema :
    (∀ (tbl : RawTable) (c : String), c ∈ requiredCols → c ∉ tbl.cols →
      ∃ missing, load_session tbl = Except.error missing ∧ missing ≠ [] ∧
        ∀ c2 ∈ missing, c2 ∈ requiredCols ∧ c2 ∉ tbl.cols) ∧
    (∀ tbl : RawTable, (∀ c ∈ requiredCols, c ∈ tbl.cols) →
      load_session tbl = Except.ok (tbl.rows.filterMap dropIncomplete)) := by
  constructor
  · intro tbl c hc hnc
    unfold load_session
    by_cases hp : "participant" ∈ tbl.cols
    · by_cases hcond : "condition" ∈ tbl.cols
      · have hc6 : c ∈ dropnaSubset := by
          simp only [requiredCols, List.mem_cons, List.not_mem_nil, or_false] at hc
          rcases hc with rfl | rfl | rfl | rfl | rfl | rfl | rfl | rfl
          · exact absurd hp hnc
          · exact absurd hcond hnc
          all_goals simp [dropnaSubset]
        rw [if_neg (not_not_intro hp), if_neg (not_not_intro hcond)]
        cases hfil : dropnaSubset.filter (fun c => decide (c ∉ tbl.cols)) with
        | nil =>
          exfalso
          have hmem : c ∈ dropnaSubset.filter (fun c => decide (c ∉ tbl.cols)) :=
            List.mem_filter.mpr ⟨hc6, by simpa using hnc⟩
          rw [hfil] at hmem
          exact absurd hmem (List.not_mem_nil c)
        | cons m ms =>
          refine ⟨m :: ms, rfl, by simp, ?_⟩
          intro c2 hc2
          rw [← hfil] at hc2
          have h1 := List.mem_filter.mp hc2
          constructor
          · have h2 := h1.1
            simp only [dropnaSubset, List.mem_cons, List.not_mem_nil, or_false] at h2
            simp only [requiredCols, List.mem_cons, List.not_mem_nil, or_false]
            tauto
          · simpa using h1.2
      · rw [if_neg (not_not_intro hp), if_pos hcond]
        refine ⟨["condition"], rfl, by simp, ?_⟩
        intro c2 hc2
        simp only [List.mem_cons, List.not_mem_nil, or_false] at hc2
        subst hc2
        exact ⟨by simp [requiredCols], hcond⟩
    · rw [if_pos hp]
      refine ⟨["participant"], rfl, by simp, ?_⟩
      intro c2 hc2
      simp only [List.mem_cons, List.not_mem_nil, or_false] at hc2
      subst hc2
      exact ⟨by simp [requiredCols], hp⟩
  · intro tbl hall
    unfold load_session
    rw [if_neg (not_not_intro (hall _ (by simp [requiredCols]))),
      if_neg (not_not_intro (hall _ (by simp [requiredCols])))]
    have hfil : dropnaSubset.filter (fun c => decide (c ∉ tbl.cols)) = [] := by
      rw [List.filter_eq_nil_iff]
      intro a ha
      have ha2 : a ∈ requiredCols := by
        simp only [dropnaSubset, List.mem_cons, List.not_mem_nil, or_false] at ha
        simp only [requiredCols, List.mem_cons, List.not_mem_nil, or_false]
        tauto
      simpa using not_not_intro (hall a ha2)
    rw [hfil]

/-- A table with the `x_p` column absent. -/
def tblMissingXp : RawTable :=
  RawTable.mk ["participant", "condition", "trial", "tau", "t", "y_t", "y_p"] []

/-- A table with all required columns, one complete row and one row missing
`tau`. -/
def tblFull : RawTable :=
  RawTable.mk requiredCols
    [RawRow.mk (some "P1") (some "A") (some 1) (some 0) (some 0) (some 0) (some 0) (some 0),
     RawRow.mk (some "P1") (some "A") (some 2) none (some 0) (some 0) (some 0) (some 0)]

/-- Closed witness for the hypotheses of `C9_load_session_schema`: the error
clause at a table missing `x_p` and the success clause at a complete table. -/
theorem C9_load_session_schema_witness :
    (∃ missing, load_session tblMissingXp = Except.error missing ∧ missing ≠ [] ∧
      ∀ c2 ∈ missing, c2 ∈ requiredCols ∧ c2 ∉ tblMissingXp.cols) ∧
    load_session tblFull = Except.ok (tblFull.rows.filterMap dropIncomplete) :=
  ⟨C9_load_session_schema.1 tblMissingXp "x_p" (by decide) (by decide),
   C9_load_session_schema.2 tblFull (by decide)⟩
